import Mathlib

/-!
Verification of the voice-gateway realtime call engine.

This development is a shallow embedding of
`voice_gateway/app/engine/realtime_engine.py` and
`voice_gateway/app/engine/factory.py`.  The engine's mutable object state
becomes an explicit `EngineState` record, awaited collaborator calls
(provider, observability logger, outbound Twilio websocket callback) become
an `EngineEffect` trace, and `time.time()` becomes an explicit rational
`now` argument.  Machine integers are modelled as `Nat` (Python ints are
unbounded, so no wrap-around is needed); base64 handling models
`base64.b64decode(payload, validate=True)` and `base64.b64encode`.
-/

namespace VoiceGateway

/-! ### Base64 model

Model of Python `base64.b64decode(s, validate=True)`: every character must
come from the standard alphabet, the length must be a multiple of four, and
`=` padding may only close the final quartet.  Decoding failure (Python
`binascii.Error`) is `none`.  `b64encode` is the standard encoder used for
outbound media payloads. -/

def b64_char_value (c : Char) : Option Nat :=
  if 'A' ≤ c ∧ c ≤ 'Z' then some (c.toNat - 65)
  else if 'a' ≤ c ∧ c ≤ 'z' then some (c.toNat - 97 + 26)
  else if '0' ≤ c ∧ c ≤ '9' then some (c.toNat - 48 + 52)
  else if c = '+' then some 62
  else if c = '/' then some 63
  else none

def b64_decode_groups : List Char → Option (List Nat)
  | [] => some []
  | c1 :: c2 :: c3 :: c4 :: rest =>
    match b64_char_value c1, b64_char_value c2 with
    | some v1, some v2 =>
      if c3 = '=' then
        if c4 = '=' ∧ rest = [] then some [v1 * 4 + v2 / 16] else none
      else
        match b64_char_value c3 with
        | some v3 =>
          if c4 = '=' then
            if rest = [] then some [v1 * 4 + v2 / 16, v2 % 16 * 16 + v3 / 4] else none
          else
            match b64_char_value c4, b64_decode_groups rest with
            | some v4, some decoded =>
              some ((v1 * 4 + v2 / 16) :: (v2 % 16 * 16 + v3 / 4) :: (v3 % 4 * 64 + v4) :: decoded)
            | _, _ => none
        | none => none
    | _, _ => none
  | _ => none

def b64decode (s : String) : Option (List Nat) :=
  b64_decode_groups s.data

def b64_value_char (v : Nat) : Char :=
  if v < 26 then Char.ofNat (65 + v)
  else if v < 52 then Char.ofNat (97 + v - 26)
  else if v < 62 then Char.ofNat (48 + v - 52)
  else if v = 62 then '+'
  else '/'

def b64_encode_list : List Nat → List Char
  | [] => []
  | [b1] => [b64_value_char (b1 / 4), b64_value_char (b1 % 4 * 16), '=', '=']
  | [b1, b2] =>
    [b64_value_char (b1 / 4), b64_value_char (b1 % 4 * 16 + b2 / 16),
     b64_value_char (b2 % 16 * 4), '=']
  | b1 :: b2 :: b3 :: rest =>
    b64_value_char (b1 / 4) :: b64_value_char (b1 % 4 * 16 + b2 / 16) ::
    b64_value_char (b2 % 16 * 4 + b3 / 64) :: b64_value_char (b3 % 64) ::
    b64_encode_list rest

def b64encode (bytes : List Nat) : String :=
  ⟨b64_encode_list bytes⟩

/-! ### Inbound / outbound Twilio frames

`TwilioInboundMessage` models the JSON dict fields the engine reads:
`event`, `media.payload` (default `""`), `mark.name` (default `""`),
`start.streamSid` and `start.callSid` (absent keys are `none`). -/

structure TwilioInboundMessage where
  event : String
  media_payload : String
  mark_name : String
  start_stream_sid : Option String
  start_call_sid : Option String
deriving DecidableEq, Repr

inductive TwilioOutboundPayload where
  | media (stream_sid : String) (payload : String)
  | mark (stream_sid : String) (mark_name : String)
  | clear (stream_sid : String)
deriving DecidableEq, Repr

/-- Awaited collaborator calls made by the engine, recorded as a trace. -/
inductive EngineEffect where
  | send_audio (audio : List Nat)
  | on_output_played (item_id : String) (content_index : Nat) (byte_count : Nat) (mark_id : String)
  | provider_close
  | set_call_context (call_id : String)
  | ensure_call (call_id : String)
  | ensure_provider_session
  | log_call_event (event_name : String) (direction : String) (source : String)
  | finalize_call
  | emit_twilio (payload : TwilioOutboundPayload)
deriving DecidableEq, Repr

/-! ### Association-list helpers (model of Python dict operations) -/

def alist_erase {α : Type} (k : String) : List (String × α) → List (String × α)
  | [] => []
  | e :: rest => if e.1 = k then alist_erase k rest else e :: alist_erase k rest

def alist_lookup {α : Type} (k : String) : List (String × α) → Option α
  | [] => none
  | e :: rest => if e.1 = k then some e.2 else alist_lookup k rest

def alist_insert {α : Type} (k : String) (v : α) (m : List (String × α)) : List (String × α) :=
  (k, v) :: alist_erase k m

/-- Python truthiness of an optional string (`None` and `""` are falsy). -/
def str_option_truthy : Option String → Bool
  | none => false
  | some s => if s = "" then false else true

/-! ### Engine state (`RealtimeCallEngine.__init__`) -/

def chunk_length_s : ℚ := 1 / 20

def sample_rate_hz : ℕ := 8000

/-- `int(self._sample_rate_hz * self._chunk_length_s)`: the float product
`8000 * 0.05` is `400.0000…2` whose `int()` truncation is `400`; the exact
rational product is `400` (see `buffer_size_bytes_spec`). -/
def buffer_size_bytes : ℕ := 400

structure EngineState where
  /-- `self._provider_info is not None` (set by `start()`). -/
  provider_started : Bool
  /-- `self._emit_twilio_message is not None`. -/
  emit_callback_set : Bool
  is_shutting_down : Bool
  stop_requested : Bool
  stream_sid : Option String
  call_id : Option String
  /-- `self._logger is not None`. -/
  has_logger : Bool
  caller_audio_buffer : List Nat
  last_agent_audio_send_time : ℚ
  startup_buffer_chunks : Nat
  startup_audio_buffer : List Nat
  startup_audio_warmed : Bool
  mark_counter : Nat
  twilio_mark_playback_map : List (String × String × Nat × Nat)
  twilio_inbound_audio_frames : Nat
  twilio_inbound_audio_bytes : Nat
  agent_input_audio_chunks : Nat
  agent_input_audio_bytes : Nat
  agent_output_audio_chunks : Nat
  agent_output_audio_bytes : Nat
  turn_agent_output_audio_chunks : Nat
  turn_agent_output_audio_bytes : Nat
  provider_event_counts : List (String × Nat)
deriving DecidableEq, Repr

/-- `RealtimeCallEngine.__init__` (with `settings.TWILIO_STARTUP_BUFFER_CHUNKS`
passed explicitly; `now` is the `time.time()` value at construction). -/
def init_engine_state (startup_buffer_chunks : Nat) (now : ℚ) : EngineState :=
  { provider_started := false
    emit_callback_set := false
    is_shutting_down := false
    stop_requested := false
    stream_sid := none
    call_id := none
    has_logger := false
    caller_audio_buffer := []
    last_agent_audio_send_time := now
    startup_buffer_chunks := startup_buffer_chunks
    startup_audio_buffer := []
    startup_audio_warmed := startup_buffer_chunks == 0
    mark_counter := 0
    twilio_mark_playback_map := []
    twilio_inbound_audio_frames := 0
    twilio_inbound_audio_bytes := 0
    agent_input_audio_chunks := 0
    agent_input_audio_bytes := 0
    agent_output_audio_chunks := 0
    agent_output_audio_bytes := 0
    turn_agent_output_audio_chunks := 0
    turn_agent_output_audio_bytes := 0
    provider_event_counts := [] }

/-- `RealtimeCallEngine.start`: stores the outbound callback and starts the
provider (background loop tasks are modelled as explicit `EngineOp`s). -/
def engine_start (s : EngineState) : EngineState :=
  { s with emit_callback_set := true, provider_started := true }

/-! ### Engine operations -/

/-- `RealtimeCallEngine._try_log_call_event`: writes only when the logger
context exists. -/
def try_log_call_event (s : EngineState) (event_name direction source : String) :
    List EngineEffect :=
  if s.has_logger then [.log_call_event event_name direction source] else []

/-- `RealtimeCallEngine._log_internal_error`: a `gateway_error` call event
whose payload carries the error code. -/
def log_internal_error (s : EngineState) (_error_code : String) : List EngineEffect :=
  try_log_call_event s "gateway_error" "SYSTEM" "VOICE_GATEWAY"

/-- `RealtimeCallEngine._flush_caller_audio_buffer`. -/
def flush_caller_audio_buffer (now : ℚ) (s : EngineState) :
    EngineState × List EngineEffect :=
  if s.caller_audio_buffer = [] then (s, [])
  else
    let audio_chunk := s.caller_audio_buffer
    let s1 := { s with caller_audio_buffer := [], last_agent_audio_send_time := now }
    if s1.startup_audio_warmed = false then
      let startup := s1.startup_audio_buffer ++ audio_chunk
      let warmup_target_bytes := buffer_size_bytes * s1.startup_buffer_chunks
      if startup.length < warmup_target_bytes then
        ({ s1 with startup_audio_buffer := startup }, [])
      else
        let s2 := { s1 with startup_audio_buffer := [], startup_audio_warmed := true }
        ({ s2 with agent_input_audio_chunks := s2.agent_input_audio_chunks + 1,
                   agent_input_audio_bytes := s2.agent_input_audio_bytes + startup.length },
         [.send_audio startup])
    else
      ({ s1 with agent_input_audio_chunks := s1.agent_input_audio_chunks + 1,
                 agent_input_audio_bytes := s1.agent_input_audio_bytes + audio_chunk.length },
       [.send_audio audio_chunk])

/-- `RealtimeCallEngine._should_flush_caller_audio_buffer`. -/
def should_flush_caller_audio_buffer (now : ℚ) (s : EngineState) : Bool :=
  if s.caller_audio_buffer = [] then false
  else decide (now - s.last_agent_audio_send_time > chunk_length_s * 2)

/-- `RealtimeCallEngine._handle_media_event`. -/
def handle_media_event (now : ℚ) (s : EngineState) (message : TwilioInboundMessage) :
    EngineState × List EngineEffect :=
  if message.media_payload = "" then (s, [])
  else
    match b64decode message.media_payload with
    | none => (s, log_internal_error s "invalid_twilio_media_payload")
    | some ulaw_bytes =>
      let s1 := { s with
        twilio_inbound_audio_frames := s.twilio_inbound_audio_frames + 1,
        twilio_inbound_audio_bytes := s.twilio_inbound_audio_bytes + ulaw_bytes.length,
        caller_audio_buffer := s.caller_audio_buffer ++ ulaw_bytes }
      if buffer_size_bytes ≤ s1.caller_audio_buffer.length then
        flush_caller_audio_buffer now s1
      else (s1, [])

/-- `RealtimeCallEngine._handle_mark_event`. -/
def handle_mark_event (s : EngineState) (message : TwilioInboundMessage) :
    EngineState × List EngineEffect :=
  match alist_lookup message.mark_name s.twilio_mark_playback_map with
  | none => (s, [])
  | some entry =>
    ({ s with twilio_mark_playback_map :=
        (alist_erase message.mark_name s.twilio_mark_playback_map) },
     [.on_output_played entry.1 entry.2.1 entry.2.2 message.mark_name])

/-- `RealtimeCallEngine._handle_start_event`.  `none` models the
`RuntimeError` raised by `_require_provider_info` when the engine was never
started. -/
def handle_start_event (s : EngineState) (message : TwilioInboundMessage) :
    Option (EngineState × List EngineEffect) :=
  let s1 := { s with stream_sid := message.start_stream_sid }
  match message.start_call_sid with
  | none => some (s1, [])
  | some call_sid =>
    if call_sid = "" then some (s1, [])
    else if s1.provider_started = false then none
    else
      some ({ s1 with call_id := some call_sid, has_logger := true },
        [.ensure_call call_sid, .set_call_context call_sid, .ensure_provider_session,
         .log_call_event "start" "IN" "TWILIO"])

/-- `RealtimeCallEngine.handle_twilio_message`.  Returns the updated state,
the collaborator-call trace, and the boolean result; `none` models a raised
exception. -/
def handle_twilio_message (now : ℚ) (s : EngineState) (message : TwilioInboundMessage) :
    Option (EngineState × List EngineEffect × Bool) :=
  if s.stop_requested = true ∨ s.is_shutting_down = true then some (s, [], false)
  else
    let event := message.event
    if event = "start" then
      match handle_start_event s message with
      | none => none
      | some r => some (r.1, r.2, true)
    else if event = "media" then
      let r := handle_media_event now s message
      some (r.1, r.2, true)
    else if event = "mark" then
      let r := handle_mark_event s message
      some (r.1, r.2, true)
    else if event = "stop" then
      some ({ s with stop_requested := true }, try_log_call_event s "stop" "IN" "TWILIO", false)
    else
      let event_name := if event = "" then "unknown" else event
      some (s, try_log_call_event s event_name "IN" "TWILIO", true)

/-- `RealtimeCallEngine.shutdown` (task cancellation is not an observable
collaborator call; the provider close and the logger finalization are). -/
def shutdown (s : EngineState) : EngineState × List EngineEffect :=
  if s.is_shutting_down = true then (s, [])
  else
    let s1 := { s with is_shutting_down := true, stop_requested := true }
    let final_effects := if s1.has_logger then [EngineEffect.finalize_call] else []
    ({ s1 with emit_callback_set := false }, EngineEffect.provider_close :: final_effects)

/-- `RealtimeCallEngine._emit_twilio_message_payload`. -/
def emit_twilio_message_payload (s : EngineState) (payload : TwilioOutboundPayload) :
    List EngineEffect :=
  if s.emit_callback_set then [.emit_twilio payload] else []

/-- The fields of a normalized provider `audio_output` event read by
`_emit_audio_to_twilio`. -/
structure ProviderAudioEvent where
  item_id : Option String
  content_index : Option Nat
  audio_bytes : List Nat
deriving DecidableEq, Repr

/-- `RealtimeCallEngine._emit_audio_to_twilio`. -/
def emit_audio_to_twilio (s : EngineState) (event : ProviderAudioEvent) :
    EngineState × List EngineEffect :=
  if str_option_truthy s.stream_sid = false ∨ event.audio_bytes = [] then (s, [])
  else
    let sid := s.stream_sid.getD ""
    let encoded_audio := b64encode event.audio_bytes
    let s1 := { s with
      agent_output_audio_chunks := s.agent_output_audio_chunks + 1,
      agent_output_audio_bytes := s.agent_output_audio_bytes + event.audio_bytes.length,
      turn_agent_output_audio_chunks := s.turn_agent_output_audio_chunks + 1,
      turn_agent_output_audio_bytes := s.turn_agent_output_audio_bytes + event.audio_bytes.length }
    let media_effects := emit_twilio_message_payload s1 (.media sid encoded_audio)
    let s2 := { s1 with mark_counter := s1.mark_counter + 1 }
    let mark_id := toString s2.mark_counter
    let s3 := { s2 with twilio_mark_playback_map :=
      (alist_insert mark_id (event.item_id.getD "", event.content_index.getD 0,
        event.audio_bytes.length) s2.twilio_mark_playback_map) }
    let mark_effects := emit_twilio_message_payload s3 (.mark sid mark_id)
    (s3, media_effects ++ mark_effects)

/-- `self._provider_event_counts[name] = self._provider_event_counts.get(name, 0) + 1`. -/
def bump_event_count (m : List (String × Nat)) (k : String) : List (String × Nat) :=
  alist_insert k ((alist_lookup k m).getD 0 + 1) m

/-- The `audio_output` path of `RealtimeCallEngine._handle_provider_event`
for an event with no external session id: per-event logging is suppressed
for `audio_output`, so only the diagnostics counter update and the audio
emission happen. -/
def handle_provider_audio_output (s : EngineState) (event : ProviderAudioEvent) :
    EngineState × List EngineEffect :=
  let s1 := { s with provider_event_counts := bump_event_count s.provider_event_counts "audio_output" }
  emit_audio_to_twilio s1 event

/-- One iteration body of `RealtimeCallEngine._buffer_flush_loop`. -/
def buffer_flush_tick (now : ℚ) (s : EngineState) : EngineState × List EngineEffect :=
  if s.is_shutting_down = false ∧ should_flush_caller_audio_buffer now s = true then
    flush_caller_audio_buffer now s
  else (s, [])

/-! ### Interleaved executions of the live engine

During the active phase of a call, three loops act on the engine state:
the transport read loop (`handle_twilio_message`), the provider event loop
(`_handle_provider_event`, here for `audio_output` events), and the stale
buffer flush loop.  The asyncio event loop serializes the three, so an
execution is a sequence of atomic engine operations, each tagged with the
`time.time()` value at which it runs. -/

inductive EngineOp where
  | twilio_message (message : TwilioInboundMessage)
  | provider_audio_output (event : ProviderAudioEvent)
  | buffer_flush_tick
deriving DecidableEq, Repr

def engine_step (now : ℚ) (s : EngineState) : EngineOp → Option (EngineState × List EngineEffect)
  | .twilio_message m =>
    match handle_twilio_message now s m with
    | none => none
    | some r => some (r.1, r.2.1)
  | .provider_audio_output e => some (handle_provider_audio_output s e)
  | .buffer_flush_tick => some (buffer_flush_tick now s)

def run_engine (s : EngineState) : List (ℚ × EngineOp) → Option (EngineState × List EngineEffect)
  | [] => some (s, [])
  | step :: rest =>
    match engine_step step.1 s step.2 with
    | none => none
    | some r =>
      match run_engine r.1 rest with
      | none => none
      | some r2 => some (r2.1, r.2 ++ r2.2)

def run_messages (s : EngineState) : List (ℚ × TwilioInboundMessage) →
    Option (EngineState × List EngineEffect × List Bool)
  | [] => some (s, [], [])
  | step :: rest =>
    match handle_twilio_message step.1 s step.2 with
    | none => none
    | some r =>
      match run_messages r.1 rest with
      | none => none
      | some r2 => some (r2.1, r.2.1 ++ r2.2.1, r.2.2 :: r2.2.2)

/-! ### Engine factory (`factory.py`) -/

inductive ProviderImpl where
  | openai_realtime_provider
deriving DecidableEq, Repr

inductive CallEngineImpl where
  | realtime_call_engine (provider : ProviderImpl)
deriving DecidableEq, Repr

inductive FactoryError where
  | not_implemented (message : String)
  | value_error (message : String)
deriving DecidableEq, Repr

/-- Python `str.strip()` whitespace predicate (ASCII whitespace). -/
def py_is_space (c : Char) : Bool :=
  c = ' ' ∨ c = '\t' ∨ c = '\n' ∨ c = '\r' ∨ c = '\x0b' ∨ c = '\x0c'

/-- Python `str.strip()`. -/
def py_strip (s : String) : String :=
  ⟨((s.data.dropWhile py_is_space).reverse.dropWhile py_is_space).reverse⟩

/-- Python `str.lower()` (agreeing with it on ASCII mode strings). -/
def py_lower (s : String) : String :=
  ⟨s.data.map Char.toLower⟩

/-- `create_call_engine` from `factory.py`. -/
def create_call_engine (mode : String) : Except FactoryError CallEngineImpl :=
  let normalized := py_lower (py_strip mode)
  if normalized = "realtime" then .ok (.realtime_call_engine .openai_realtime_provider)
  else if normalized = "pipeline" then
    .error (.not_implemented "PipelineCallEngine is not implemented yet")
  else .error (.value_error ("Unsupported VOICE_EXECUTION_MODE: " ++ mode))

/-! ### Observation helpers -/

def send_audio_chunks (effects : List EngineEffect) : List (List Nat) :=
  effects.filterMap fun e =>
    match e with
    | .send_audio a => some a
    | _ => none

def mark_frame_names (effects : List EngineEffect) : List String :=
  effects.filterMap fun e =>
    match e with
    | .emit_twilio (.mark _ name) => some name
    | _ => none

def media_bytes (m : TwilioInboundMessage) : List Nat :=
  (b64decode m.media_payload).getD []

def joined_media_bytes (msgs : List (ℚ × TwilioInboundMessage)) : List Nat :=
  (msgs.map fun p => media_bytes p.2).flatten

/-- A well-formed inbound `media` frame whose payload base64-decodes. -/
def valid_media_message (m : TwilioInboundMessage) : Prop :=
  m.event = "media" ∧ m.media_payload ≠ "" ∧ (b64decode m.media_payload).isSome

instance (m : TwilioInboundMessage) : Decidable (valid_media_message m) := by
  unfold valid_media_message
  infer_instance

def media_message (payload : String) : TwilioInboundMessage :=
  { event := "media", media_payload := payload, mark_name := "",
    start_stream_sid := none, start_call_sid := none }

def mark_message (mark_id : String) : TwilioInboundMessage :=
  { event := "mark", media_payload := "", mark_name := mark_id,
    start_stream_sid := none, start_call_sid := none }

def start_message (sid call_sid : String) : TwilioInboundMessage :=
  { event := "start", media_payload := "", mark_name := "",
    start_stream_sid := some sid, start_call_sid := some call_sid }

def stop_message : TwilioInboundMessage :=
  { event := "stop", media_payload := "", mark_name := "",
    start_stream_sid := none, start_call_sid := none }

theorem buffer_size_bytes_spec :
    (buffer_size_bytes : ℚ) = (sample_rate_hz : ℚ) * chunk_length_s := by
  norm_num [buffer_size_bytes, sample_rate_hz, chunk_length_s]

theorem buffer_size_bytes_eq : buffer_size_bytes = 400 := rfl

/-! ### Injectivity of `toString` on `Nat`

Mark ids are minted as `str(self._mark_counter)`; distinctness of emitted
mark ids reduces to injectivity of the decimal representation. -/

def nat_digits_model (n : Nat) : List Char :=
  if _h : n < 10 then [Nat.digitChar n]
  else nat_digits_model (n / 10) ++ [Nat.digitChar (n % 10)]
termination_by n
decreasing_by
  exact Nat.div_lt_self (by omega) (by omega)

theorem toDigitsCore_eq_model :
    ∀ (fuel n : Nat) (ds : List Char), n < fuel →
      Nat.toDigitsCore 10 fuel n ds = nat_digits_model n ++ ds := by
  intro fuel
  induction fuel with
  | zero => intro n ds h; omega
  | succ f ih =>
    intro n ds h
    have hstep : Nat.toDigitsCore 10 (f + 1) n ds =
        if n / 10 = 0 then Nat.digitChar (n % 10) :: ds
        else Nat.toDigitsCore 10 f (n / 10) (Nat.digitChar (n % 10) :: ds) := rfl
    rw [hstep]
    by_cases h10 : n / 10 = 0
    · have hn : n < 10 := by omega
      rw [if_pos h10, nat_digits_model, dif_pos hn, Nat.mod_eq_of_lt hn]
      rfl
    · have hn : ¬ n < 10 := by omega
      have hrec : n / 10 < f := by omega
      have hmodel : nat_digits_model n =
          nat_digits_model (n / 10) ++ [Nat.digitChar (n % 10)] := by
        conv_lhs => rw [nat_digits_model]
        rw [dif_neg hn]
      rw [if_neg h10, ih (n / 10) (Nat.digitChar (n % 10) :: ds) hrec, hmodel,
        List.append_assoc]
      rfl

def digits_value (cs : List Char) : Nat :=
  cs.foldl (fun a c => 10 * a + (c.toNat - 48)) 0

theorem digitChar_toNat (d : Nat) (h : d < 10) : (Nat.digitChar d).toNat = 48 + d := by
  interval_cases d <;> rfl

theorem digits_value_model (n : Nat) : digits_value (nat_digits_model n) = n := by
  induction n using Nat.strong_induction_on with
  | _ n ih =>
    by_cases h : n < 10
    · rw [nat_digits_model, dif_pos h]
      simp [digits_value, digitChar_toNat n h]
    · rw [nat_digits_model, dif_neg h]
      have hd : n / 10 < n := Nat.div_lt_self (by omega) (by omega)
      have hih := ih (n / 10) hd
      unfold digits_value at hih ⊢
      rw [List.foldl_append, hih]
      simp [digitChar_toNat (n % 10) (Nat.mod_lt n (by omega))]
      omega

theorem nat_repr_eq_model (n : Nat) : Nat.repr n = (nat_digits_model n).asString := by
  unfold Nat.repr Nat.toDigits
  rw [toDigitsCore_eq_model (n + 1) n [] (by omega), List.append_nil]

theorem nat_toString_injective : ∀ m n : Nat, toString m = toString n → m = n := by
  intro m n h
  have h' : Nat.repr m = Nat.repr n := h
  rw [nat_repr_eq_model, nat_repr_eq_model] at h'
  have hdm : nat_digits_model m = nat_digits_model n := by
    have := congrArg String.data h'
    simpa [List.asString] using this
  calc m = digits_value (nat_digits_model m) := (digits_value_model m).symm
    _ = digits_value (nat_digits_model n) := by rw [hdm]
    _ = n := digits_value_model n

/-! ### Association-list lemmas -/

theorem alist_lookup_insert_self {α : Type} (m : List (String × α)) (k : String) (v : α) :
    alist_lookup k (alist_insert k v m) = some v := by
  simp [alist_insert, alist_lookup]

theorem alist_lookup_erase_self {α : Type} (m : List (String × α)) (k : String) :
    alist_lookup k (alist_erase k m) = none := by
  induction m with
  | nil => rfl
  | cons e rest ih =>
    by_cases h : e.1 = k
    · simp only [alist_erase, if_pos h]
      exact ih
    · simp only [alist_erase, if_neg h, alist_lookup, ih]

theorem mem_alist_erase {α : Type} (e : String × α) (m : List (String × α)) (k : String) :
    e ∈ alist_erase k m → e ∈ m := by
  induction m with
  | nil => intro h; simp [alist_erase] at h
  | cons e' rest ih =>
    intro h
    by_cases h' : e'.1 = k
    · simp only [alist_erase, if_pos h'] at h
      exact List.mem_cons_of_mem _ (ih h)
    · simp only [alist_erase, if_neg h'] at h
      rcases List.mem_cons.mp h with h | h
      · exact h ▸ List.mem_cons_self _ _
      · exact List.mem_cons_of_mem _ (ih h)

theorem mem_alist_insert {α : Type} (e : String × α) (m : List (String × α)) (k : String)
    (v : α) : e ∈ alist_insert k v m → e = (k, v) ∨ e ∈ m := by
  intro h
  rcases List.mem_cons.mp h with h | h
  · exact Or.inl h
  · exact Or.inr (mem_alist_erase e m k h)

/-! ### Dispatch lemmas for `handle_twilio_message` -/

theorem handle_dispatch_media (now : ℚ) (s : EngineState) (m : TwilioInboundMessage)
    (hev : m.event = "media") (hstop : s.stop_requested = false)
    (hshut : s.is_shutting_down = false) :
    handle_twilio_message now s m =
      some ((handle_media_event now s m).1, (handle_media_event now s m).2, true) := by
  unfold handle_twilio_message
  simp [hstop, hshut, hev]

theorem handle_dispatch_mark (now : ℚ) (s : EngineState) (m : TwilioInboundMessage)
    (hev : m.event = "mark") (hstop : s.stop_requested = false)
    (hshut : s.is_shutting_down = false) :
    handle_twilio_message now s m =
      some ((handle_mark_event s m).1, (handle_mark_event s m).2, true) := by
  unfold handle_twilio_message
  simp [hstop, hshut, hev]

theorem handle_dispatch_stop (now : ℚ) (s : EngineState) (m : TwilioInboundMessage)
    (hev : m.event = "stop") (hstop : s.stop_requested = false)
    (hshut : s.is_shutting_down = false) :
    handle_twilio_message now s m =
      some ({ s with stop_requested := true },
        try_log_call_event s "stop" "IN" "TWILIO", false) := by
  unfold handle_twilio_message
  simp [hstop, hshut, hev]

/-- Claim C10: once stop has been requested or shutdown has begun, every
subsequent `handle_twilio_message` call, for any frame kind, returns `false`
immediately, leaves the engine state unchanged, and makes no provider or
logger calls. -/
theorem claim_c10_stopped_engine_ignores_frames (now : ℚ) (s : EngineState)
    (m : TwilioInboundMessage)
    (h : s.stop_requested = true ∨ s.is_shutting_down = true) :
    handle_twilio_message now s m = some (s, [], false) := by
  unfold handle_twilio_message
  rw [if_pos h]

/-- Concrete instance of claim C10: a stop-requested engine ignores a
subsequent media frame (and a shutting-down engine ignores a start frame). -/
theorem claim_c10_stopped_engine_ignores_frames_witness :
    handle_twilio_message 0 { init_engine_state 3 0 with stop_requested := true }
        (media_message "AAAA") =
      some ({ init_engine_state 3 0 with stop_requested := true }, [], false) ∧
    handle_twilio_message 0 { init_engine_state 3 0 with is_shutting_down := true }
        (start_message "MZ" "CA1") =
      some ({ init_engine_state 3 0 with is_shutting_down := true }, [], false) :=
  ⟨claim_c10_stopped_engine_ignores_frames 0 _ _ (Or.inl rfl),
   claim_c10_stopped_engine_ignores_frames 0 _ _ (Or.inr rfl)⟩

/-- Claim C5: a `media` frame whose payload is not valid base64 produces the
internal `gateway_error` call-event log, leaves the engine state (caller
buffer and counters included) unchanged, makes no `send_audio` call, does
not raise, and returns `true`. -/
theorem claim_c5_invalid_base64_media_nonfatal (now : ℚ) (s : EngineState)
    (m : TwilioInboundMessage) (hev : m.event = "media")
    (hp : m.media_payload ≠ "") (hdec : b64decode m.media_payload = none)
    (hstop : s.stop_requested = false) (hshut : s.is_shutting_down = false)
    (hlog : s.has_logger = true) :
    handle_twilio_message now s m =
      some (s, [EngineEffect.log_call_event "gateway_error" "SYSTEM" "VOICE_GATEWAY"], true) := by
  rw [handle_dispatch_media now s m hev hstop hshut]
  unfold handle_media_event
  simp [hp, hdec, log_internal_error, try_log_call_event, hlog]

/-- Concrete instance of claim C5: payload `"!!!!"` is rejected and dropped
while the call continues. -/
theorem claim_c5_invalid_base64_media_nonfatal_witness :
    handle_twilio_message 0
        { engine_start (init_engine_state 3 0) with has_logger := true }
        (media_message "!!!!") =
      some ({ engine_start (init_engine_state 3 0) with has_logger := true },
        [EngineEffect.log_call_event "gateway_error" "SYSTEM" "VOICE_GATEWAY"], true) :=
  claim_c5_invalid_base64_media_nonfatal 0 _ _ rfl (by decide) (by decide) rfl rfl rfl

/-- Claim C6: the stale-buffer flush predicate is `false` for an empty
caller buffer regardless of elapsed time, and for a non-empty buffer it is
`true` exactly when more than 100 ms have elapsed since the last flush
(`chunk_length_s * 2` = 100 ms). -/
theorem claim_c6_stale_flush_condition (now : ℚ) (s : EngineState) :
    (s.caller_audio_buffer = [] → should_flush_caller_audio_buffer now s = false) ∧
    (s.caller_audio_buffer ≠ [] →
      (should_flush_caller_audio_buffer now s = true ↔
        (now - s.last_agent_audio_send_time) * 1000 > 100)) := by
  constructor
  · intro hb
    unfold should_flush_caller_audio_buffer
    rw [if_pos hb]
  · intro hb
    unfold should_flush_caller_audio_buffer
    rw [if_neg hb, decide_eq_true_iff]
    have hc : chunk_length_s * 2 = (1 : ℚ) / 10 := by norm_num [chunk_length_s]
    rw [hc]
    constructor <;> intro h <;> linarith

/-- Claim C8: `shutdown` run twice in sequence performs exactly one provider
`close()` and exactly one call finalization; the second call observes the
shutting-down flag, changes nothing, and emits nothing. -/
theorem claim_c8_shutdown_idempotent (s : EngineState)
    (hshut : s.is_shutting_down = false) (hlog : s.has_logger = true) :
    ((shutdown s).2 ++ (shutdown (shutdown s).1).2).count EngineEffect.provider_close = 1 ∧
    ((shutdown s).2 ++ (shutdown (shutdown s).1).2).count EngineEffect.finalize_call = 1 ∧
    shutdown (shutdown s).1 = ((shutdown s).1, []) ∧
    (shutdown s).1.is_shutting_down = true ∧ (shutdown s).1.stop_requested = true := by
  have h1 : (shutdown s).2 = [EngineEffect.provider_close, EngineEffect.finalize_call] := by
    unfold shutdown
    simp [hshut, hlog]
  have h2 : (shutdown s).1.is_shutting_down = true := by
    unfold shutdown
    simp [hshut]
  have hstep : ∀ s' : EngineState, s'.is_shutting_down = true → shutdown s' = (s', []) := by
    intro s' h'
    unfold shutdown
    rw [if_pos h']
  have h3 : shutdown (shutdown s).1 = ((shutdown s).1, []) := hstep _ h2
  have h4 : (shutdown s).1.stop_requested = true := by
    unfold shutdown
    simp [hshut]
  refine ⟨?_, ?_, h3, h2, h4⟩
  · rw [h1, h3]
    rfl
  · rw [h1, h3]
    rfl

/-- Concrete instance of claim C8 on a freshly started engine with a logger
context. -/
theorem claim_c8_shutdown_idempotent_witness :
    (((shutdown { engine_start (init_engine_state 3 0) with has_logger := true }).2 ++
      (shutdown (shutdown { engine_start (init_engine_state 3 0) with
        has_logger := true }).1).2).count EngineEffect.provider_close = 1) ∧
    (((shutdown { engine_start (init_engine_state 3 0) with has_logger := true }).2 ++
      (shutdown (shutdown { engine_start (init_engine_state 3 0) with
        has_logger := true }).1).2).count EngineEffect.finalize_call = 1) ∧
    shutdown (shutdown { engine_start (init_engine_state 3 0) with has_logger := true }).1 =
      ((shutdown { engine_start (init_engine_state 3 0) with has_logger := true }).1, []) ∧
    (shutdown { engine_start (init_engine_state 3 0) with
      has_logger := true }).1.is_shutting_down = true ∧
    (shutdown { engine_start (init_engine_state 3 0) with
      has_logger := true }).1.stop_requested = true :=
  claim_c8_shutdown_idempotent _ rfl rfl

/-- Claim C9: the factory returns the realtime engine for mode `realtime`,
fails with the explicit not-implemented error for mode `pipeline`, and fails
with the plain unsupported-value configuration error for every other mode
string. -/
theorem claim_c9_create_call_engine_modes :
    create_call_engine "realtime" =
      .ok (.realtime_call_engine .openai_realtime_provider) ∧
    create_call_engine "pipeline" =
      .error (.not_implemented "PipelineCallEngine is not implemented yet") ∧
    ∀ mode : String, py_lower (py_strip mode) ≠ "realtime" →
      py_lower (py_strip mode) ≠ "pipeline" →
      create_call_engine mode =
        .error (.value_error ("Unsupported VOICE_EXECUTION_MODE: " ++ mode)) := by
  refine ⟨by rfl, by rfl, ?_⟩
  intro mode h1 h2
  unfold create_call_engine
  simp [h1, h2]

/-- Concrete instance of claim C9: the unrecognized mode `"foo"` fails with
the plain configuration error. -/
theorem claim_c9_create_call_engine_modes_witness :
    create_call_engine "foo" =
      .error (.value_error ("Unsupported VOICE_EXECUTION_MODE: " ++ "foo")) :=
  claim_c9_create_call_engine_modes.2.2 "foo" (by decide) (by decide)

/-! ### Claim C3: playback-mark round trip -/

/-- Claim C3: after an audio emission, replaying the minted mark id invokes
`on_output_played` with exactly the recorded `(item_id, content_index,
byte_count)` triple and deletes the entry; a repeat replay is a no-op, and a
mark id absent from the playback map is ignored without effects and without
raising. -/
theorem claim_c3_mark_roundtrip (s : EngineState) (e : ProviderAudioEvent) (t t' : ℚ)
    (s1 : EngineState) (tr1 : List EngineEffect)
    (hsid : str_option_truthy s.stream_sid = true)
    (hbytes : e.audio_bytes ≠ [])
    (hstop : s.stop_requested = false) (hshut : s.is_shutting_down = false)
    (hemit : emit_audio_to_twilio s e = (s1, tr1)) :
    alist_lookup (toString (s.mark_counter + 1)) s1.twilio_mark_playback_map =
      some (e.item_id.getD "", e.content_index.getD 0, e.audio_bytes.length) ∧
    handle_twilio_message t s1 (mark_message (toString (s.mark_counter + 1))) =
      some ({ s1 with twilio_mark_playback_map :=
          (alist_erase (toString (s.mark_counter + 1)) s1.twilio_mark_playback_map) },
        [EngineEffect.on_output_played (e.item_id.getD "") (e.content_index.getD 0)
          e.audio_bytes.length (toString (s.mark_counter + 1))], true) ∧
    alist_lookup (toString (s.mark_counter + 1))
      (alist_erase (toString (s.mark_counter + 1)) s1.twilio_mark_playback_map) = none ∧
    handle_twilio_message t' ({ s1 with twilio_mark_playback_map :=
        (alist_erase (toString (s.mark_counter + 1)) s1.twilio_mark_playback_map) })
      (mark_message (toString (s.mark_counter + 1))) =
      some ({ s1 with twilio_mark_playback_map :=
          (alist_erase (toString (s.mark_counter + 1)) s1.twilio_mark_playback_map) },
        [], true) ∧
    (∀ mark_id : String, alist_lookup mark_id s.twilio_mark_playback_map = none →
      handle_twilio_message t s (mark_message mark_id) = some (s, [], true)) := by
  have hguard : ¬ (str_option_truthy s.stream_sid = false ∨ e.audio_bytes = []) := by
    simp [hsid, hbytes]
  unfold emit_audio_to_twilio at hemit
  rw [if_neg hguard] at hemit
  have hs1 : _ = s1 := congrArg Prod.fst hemit
  have hmap : s1.twilio_mark_playback_map =
      alist_insert (toString (s.mark_counter + 1))
        (e.item_id.getD "", e.content_index.getD 0, e.audio_bytes.length)
        s.twilio_mark_playback_map := by
    rw [← hs1]
  have hstop1 : s1.stop_requested = false := by rw [← hs1]; exact hstop
  have hshut1 : s1.is_shutting_down = false := by rw [← hs1]; exact hshut
  refine ⟨?_, ?_, ?_, ?_, ?_⟩
  · rw [hmap]
    exact alist_lookup_insert_self _ _ _
  · rw [handle_dispatch_mark t s1 _ rfl hstop1 hshut1]
    unfold handle_mark_event
    simp only [mark_message]
    rw [hmap, alist_lookup_insert_self]
  · rw [hmap, alist_insert, alist_erase]
    simp only [if_pos rfl]
    exact alist_lookup_erase_self _ _
  · rw [handle_dispatch_mark t'
        ({ s1 with twilio_mark_playback_map :=
          (alist_erase (toString (s.mark_counter + 1)) s1.twilio_mark_playback_map) })
        (mark_message (toString (s.mark_counter + 1))) rfl hstop1 hshut1]
    unfold handle_mark_event
    simp only [mark_message]
    rw [alist_lookup_erase_self]
  · intro mark_id hnone
    rw [handle_dispatch_mark t s (mark_message mark_id) rfl hstop hshut]
    unfold handle_mark_event
    simp only [mark_message]
    rw [hnone]

/-! ### Control-field preservation across engine operations -/

/-- Fields of the engine state that `handle_twilio_message` and the flush
path never change (or, for warm-up, change only monotonically): used for the
run-level invariants below. -/
def control_preserved (s s1 : EngineState) : Prop :=
  s1.provider_started = s.provider_started ∧
  s1.emit_callback_set = s.emit_callback_set ∧
  s1.is_shutting_down = s.is_shutting_down ∧
  s1.mark_counter = s.mark_counter ∧
  (∀ e ∈ s1.twilio_mark_playback_map, e ∈ s.twilio_mark_playback_map) ∧
  (s.startup_audio_warmed = true → s1.startup_audio_warmed = true)

theorem control_preserved_refl (s : EngineState) : control_preserved s s :=
  ⟨rfl, rfl, rfl, rfl, fun _ he => he, fun h => h⟩

theorem control_preserved_trans {a b c : EngineState}
    (h1 : control_preserved a b) (h2 : control_preserved b c) : control_preserved a c := by
  obtain ⟨p1, e1, i1, m1, mm1, w1⟩ := h1
  obtain ⟨p2, e2, i2, m2, mm2, w2⟩ := h2
  exact ⟨p2.trans p1, e2.trans e1, i2.trans i1, m2.trans m1,
    fun e he => mm1 e (mm2 e he), fun h => w2 (w1 h)⟩

theorem flush_control (now : ℚ) (s : EngineState) :
    control_preserved s (flush_caller_audio_buffer now s).1 ∧
    mark_frame_names (flush_caller_audio_buffer now s).2 = [] ∧
    (flush_caller_audio_buffer now s).1.stop_requested = s.stop_requested := by
  unfold control_preserved flush_caller_audio_buffer
  by_cases h0 : s.caller_audio_buffer = []
  · simp [h0, mark_frame_names]
  · rw [if_neg h0]
    simp only []
    split_ifs with h1 h2 <;> simp_all [mark_frame_names]

theorem media_control (now : ℚ) (s : EngineState) (m : TwilioInboundMessage) :
    control_preserved s (handle_media_event now s m).1 ∧
    mark_frame_names (handle_media_event now s m).2 = [] ∧
    (handle_media_event now s m).1.stop_requested = s.stop_requested := by
  unfold handle_media_event
  by_cases hp : m.media_payload = ""
  · rw [if_pos hp]
    exact ⟨control_preserved_refl s, rfl, rfl⟩
  · rw [if_neg hp]
    cases hdec : b64decode m.media_payload with
    | none =>
      refine ⟨control_preserved_refl s, ?_, rfl⟩
      unfold log_internal_error try_log_call_event
      split_ifs <;> rfl
    | some bs =>
      simp only []
      split_ifs with hlen
      · have hmid : control_preserved s { s with
            twilio_inbound_audio_frames := s.twilio_inbound_audio_frames + 1,
            twilio_inbound_audio_bytes := s.twilio_inbound_audio_bytes + bs.length,
            caller_audio_buffer := s.caller_audio_buffer ++ bs } := by
          unfold control_preserved
          exact ⟨rfl, rfl, rfl, rfl, fun _ he => he, fun h => h⟩
        obtain ⟨hc, hm, hs⟩ := flush_control now { s with
            twilio_inbound_audio_frames := s.twilio_inbound_audio_frames + 1,
            twilio_inbound_audio_bytes := s.twilio_inbound_audio_bytes + bs.length,
            caller_audio_buffer := s.caller_audio_buffer ++ bs }
        exact ⟨control_preserved_trans hmid hc, hm, hs⟩
      · refine ⟨?_, rfl, rfl⟩
        unfold control_preserved
        exact ⟨rfl, rfl, rfl, rfl, fun _ he => he, fun h => h⟩

theorem mark_control (s : EngineState) (m : TwilioInboundMessage) :
    control_preserved s (handle_mark_event s m).1 ∧
    mark_frame_names (handle_mark_event s m).2 = [] ∧
    (handle_mark_event s m).1.stop_requested = s.stop_requested := by
  unfold handle_mark_event
  cases hl : alist_lookup m.mark_name s.twilio_mark_playback_map with
  | none =>
    exact ⟨control_preserved_refl s, rfl, rfl⟩
  | some entry =>
    refine ⟨?_, rfl, rfl⟩
    unfold control_preserved
    exact ⟨rfl, rfl, rfl, rfl,
      fun e he => mem_alist_erase e s.twilio_mark_playback_map m.mark_name he, fun h => h⟩

theorem start_control (s : EngineState) (m : TwilioInboundMessage)
    (r : EngineState × List EngineEffect) (h : handle_start_event s m = some r) :
    control_preserved s r.1 ∧ mark_frame_names r.2 = [] ∧
    r.1.stop_requested = s.stop_requested := by
  unfold handle_start_event at h
  cases hc : m.start_call_sid with
  | none =>
    rw [hc] at h
    simp only [Option.some.injEq] at h
    subst h
    exact ⟨⟨rfl, rfl, rfl, rfl, fun _ he => he, fun h => h⟩, rfl, rfl⟩
  | some call_sid =>
    rw [hc] at h
    simp only [] at h
    by_cases h1 : call_sid = ""
    · rw [if_pos h1] at h
      simp only [Option.some.injEq] at h
      subst h
      exact ⟨⟨rfl, rfl, rfl, rfl, fun _ he => he, fun h => h⟩, rfl, rfl⟩
    · rw [if_neg h1] at h
      by_cases h2 : s.provider_started = false
      · rw [if_pos h2] at h
        exact Option.noConfusion h
      · rw [if_neg h2] at h
        simp only [Option.some.injEq] at h
        subst h
        exact ⟨⟨rfl, rfl, rfl, rfl, fun _ he => he, fun h => h⟩, rfl, rfl⟩

/-- Every successful `handle_twilio_message` call preserves the control
fields, emits no outbound mark frames, touches `stop_requested` only for
`stop` frames, and returns `true` for live non-stop frames. -/
theorem handle_msg_control (now : ℚ) (s : EngineState) (m : TwilioInboundMessage)
    (s1 : EngineState) (eff : List EngineEffect) (b : Bool)
    (h : handle_twilio_message now s m = some (s1, eff, b)) :
    control_preserved s s1 ∧ mark_frame_names eff = [] ∧
    (m.event ≠ "stop" → s1.stop_requested = s.stop_requested) ∧
    (s.stop_requested = false → s.is_shutting_down = false → m.event ≠ "stop" → b = true) := by
  unfold handle_twilio_message at h
  by_cases hg : s.stop_requested = true ∨ s.is_shutting_down = true
  · rw [if_pos hg] at h
    simp only [Option.some.injEq, Prod.mk.injEq] at h
    obtain ⟨h1, h2, h3⟩ := h
    subst h1; subst h2; subst h3
    refine ⟨control_preserved_refl s, rfl, fun _ => rfl, ?_⟩
    intro hs hsd _
    simp [hs, hsd] at hg
  · rw [if_neg hg] at h
    simp only [] at h
    by_cases h1 : m.event = "start"
    · rw [if_pos h1] at h
      cases hse : handle_start_event s m with
      | none => rw [hse] at h; exact Option.noConfusion h
      | some r =>
        rw [hse] at h
        simp only [Option.some.injEq, Prod.mk.injEq] at h
        obtain ⟨ha, hb, hc⟩ := h
        subst ha; subst hb; subst hc
        obtain ⟨hcp, hmn, hsr⟩ := start_control s m r hse
        exact ⟨hcp, hmn, fun _ => hsr, fun _ _ _ => rfl⟩
    · rw [if_neg h1] at h
      by_cases h2 : m.event = "media"
      · rw [if_pos h2] at h
        simp only [Option.some.injEq, Prod.mk.injEq] at h
        obtain ⟨ha, hb, hc⟩ := h
        subst ha; subst hb; subst hc
        obtain ⟨hcp, hmn, hsr⟩ := media_control now s m
        exact ⟨hcp, hmn, fun _ => hsr, fun _ _ _ => rfl⟩
      · rw [if_neg h2] at h
        by_cases h3 : m.event = "mark"
        · rw [if_pos h3] at h
          simp only [Option.some.injEq, Prod.mk.injEq] at h
          obtain ⟨ha, hb, hc⟩ := h
          subst ha; subst hb; subst hc
          obtain ⟨hcp, hmn, hsr⟩ := mark_control s m
          exact ⟨hcp, hmn, fun _ => hsr, fun _ _ _ => rfl⟩
        · rw [if_neg h3] at h
          by_cases h4 : m.event = "stop"
          · rw [if_pos h4] at h
            simp only [Option.some.injEq, Prod.mk.injEq] at h
            obtain ⟨ha, hb, hc⟩ := h
            subst ha; subst hb; subst hc
            refine ⟨⟨rfl, rfl, rfl, rfl, fun _ he => he, fun h => h⟩, ?_, ?_, ?_⟩
            · unfold try_log_call_event
              split_ifs <;> rfl
            · intro hne; exact absurd h4 hne
            · intro _ _ hne; exact absurd h4 hne
          · rw [if_neg h4] at h
            simp only [Option.some.injEq, Prod.mk.injEq] at h
            obtain ⟨ha, hb, hc⟩ := h
            subst ha; subst hb; subst hc
            refine ⟨control_preserved_refl s, ?_, fun _ => rfl, fun _ _ _ => rfl⟩
            unfold try_log_call_event
            split_ifs <;> rfl

/-! ### Claim C7: stop handling -/

theorem handle_start_some (s : EngineState) (m : TwilioInboundMessage)
    (hps : s.provider_started = true) :
    ∃ r, handle_start_event s m = some r := by
  unfold handle_start_event
  cases hc : m.start_call_sid with
  | none => exact ⟨_, rfl⟩
  | some call_sid =>
    simp only []
    by_cases hcs : call_sid = ""
    · rw [if_pos hcs]
      exact ⟨_, rfl⟩
    · rw [if_neg hcs, if_neg (by simp [hps])]
      exact ⟨_, rfl⟩

theorem handle_nonstop_some (now : ℚ) (s : EngineState) (m : TwilioInboundMessage)
    (hstop : s.stop_requested = false) (hshut : s.is_shutting_down = false)
    (hps : s.provider_started = true) :
    ∃ r, handle_twilio_message now s m = some r := by
  unfold handle_twilio_message
  rw [if_neg (by simp [hstop, hshut])]
  simp only []
  by_cases h1 : m.event = "start"
  · rw [if_pos h1]
    obtain ⟨r, hr⟩ := handle_start_some s m hps
    rw [hr]
    exact ⟨_, rfl⟩
  · rw [if_neg h1]
    by_cases h2 : m.event = "media"
    · rw [if_pos h2]; exact ⟨_, rfl⟩
    · rw [if_neg h2]
      by_cases h3 : m.event = "mark"
      · rw [if_pos h3]; exact ⟨_, rfl⟩
      · rw [if_neg h3]
        by_cases h4 : m.event = "stop"
        · rw [if_pos h4]; exact ⟨_, rfl⟩
        · rw [if_neg h4]; exact ⟨_, rfl⟩

theorem run_messages_nonstop (msgs : List (ℚ × TwilioInboundMessage)) :
    ∀ s : EngineState, (∀ p ∈ msgs, p.2.event ≠ "stop") →
    s.stop_requested = false → s.is_shutting_down = false → s.provider_started = true →
    ∃ s1 tr, run_messages s msgs = some (s1, tr, List.replicate msgs.length true) ∧
      s1.stop_requested = false ∧ s1.is_shutting_down = false ∧
      s1.provider_started = true := by
  induction msgs with
  | nil =>
    intro s _ h1 h2 h3
    exact ⟨s, [], rfl, h1, h2, h3⟩
  | cons p rest ih =>
    intro s hne h1 h2 h3
    have hpne : p.2.event ≠ "stop" := hne p (List.mem_cons_self _ _)
    obtain ⟨r, hr⟩ := handle_nonstop_some p.1 s p.2 h1 h2 h3
    obtain ⟨⟨c1, _, c3, _, _, _⟩, _, hsr, hb⟩ :=
      handle_msg_control p.1 s p.2 r.1 r.2.1 r.2.2 (by rw [hr])
    have hbtrue : r.2.2 = true := hb h1 h2 hpne
    have hsr' : r.1.stop_requested = false := by rw [hsr hpne, h1]
    have hsh' : r.1.is_shutting_down = false := by rw [c3, h2]
    have hps' : r.1.provider_started = true := by rw [c1, h3]
    obtain ⟨s1, tr, hrun, hh1, hh2, hh3⟩ :=
      ih r.1 (fun q hq => hne q (List.mem_cons_of_mem _ hq)) hsr' hsh' hps'
    refine ⟨s1, r.2.1 ++ tr, ?_, hh1, hh2, hh3⟩
    unfold run_messages
    rw [hr]
    simp only []
    rw [hrun]
    simp only []
    rw [hbtrue]
    rfl

/-- Claim C7: for a session consisting of non-stop frames followed by a
`stop` frame, every non-stop frame is answered `true`, and the `stop` frame
is answered `false` after marking stop-requested and logging the frame as a
call event (when the logger context exists). -/
theorem claim_c7_stop_frame_returns_false (msgs : List (ℚ × TwilioInboundMessage))
    (t_stop : ℚ) (s : EngineState)
    (hne : ∀ p ∈ msgs, p.2.event ≠ "stop")
    (hstop : s.stop_requested = false) (hshut : s.is_shutting_down = false)
    (hps : s.provider_started = true) :
    ∃ s1 tr, run_messages s msgs = some (s1, tr, List.replicate msgs.length true) ∧
      handle_twilio_message t_stop s1 stop_message =
        some ({ s1 with stop_requested := true },
          try_log_call_event s1 "stop" "IN" "TWILIO", false) ∧
      (s1.has_logger = true →
        try_log_call_event s1 "stop" "IN" "TWILIO" =
          [EngineEffect.log_call_event "stop" "IN" "TWILIO"]) ∧
      ({ s1 with stop_requested := true }).stop_requested = true := by
  obtain ⟨s1, tr, hrun, h1, h2, _⟩ := run_messages_nonstop msgs s hne hstop hshut hps
  refine ⟨s1, tr, hrun, ?_, ?_, rfl⟩
  · exact handle_dispatch_stop t_stop s1 stop_message rfl h1 h2
  · intro hl
    unfold try_log_call_event
    rw [if_pos hl]

def other_message (event_name : String) : TwilioInboundMessage :=
  { event := event_name, media_payload := "", mark_name := "",
    start_stream_sid := none, start_call_sid := none }

def c7_wit_msgs : List (ℚ × TwilioInboundMessage) :=
  [(0, start_message "MZ" "CA1"), (0, media_message "AAAA"),
   (0, mark_message "zz"), (0, other_message "ping")]

/-- Concrete instance of claim C7: a start/media/mark/unknown session
followed by `stop`. -/
theorem claim_c7_stop_frame_returns_false_witness :
    ∃ s1 tr, run_messages (engine_start (init_engine_state 3 0)) c7_wit_msgs =
        some (s1, tr, List.replicate c7_wit_msgs.length true) ∧
      handle_twilio_message 1 s1 stop_message =
        some ({ s1 with stop_requested := true },
          try_log_call_event s1 "stop" "IN" "TWILIO", false) ∧
      (s1.has_logger = true →
        try_log_call_event s1 "stop" "IN" "TWILIO" =
          [EngineEffect.log_call_event "stop" "IN" "TWILIO"]) ∧
      ({ s1 with stop_requested := true }).stop_requested = true :=
  claim_c7_stop_frame_returns_false c7_wit_msgs 1 (engine_start (init_engine_state 3 0))
    (by decide) rfl rfl rfl

/-! ### Claim C1: inbound buffering threshold -/

theorem run_messages_append (l1 l2 : List (ℚ × TwilioInboundMessage)) :
    ∀ s : EngineState, run_messages s (l1 ++ l2) =
      (run_messages s l1).bind fun r =>
        (run_messages r.1 l2).map fun r2 => (r2.1, r.2.1 ++ r2.2.1, r.2.2 ++ r2.2.2) := by
  induction l1 with
  | nil =>
    intro s
    simp only [List.nil_append, run_messages, Option.bind]
    cases h : run_messages s l2 with
    | none => rfl
    | some r2 => simp [Option.map]
  | cons p rest ih =>
    intro s
    simp only [List.cons_append, run_messages]
    cases h : handle_twilio_message p.1 s p.2 with
    | none => simp [Option.bind]
    | some r =>
      simp only [List.append_eq]
      rw [ih r.1]
      cases h2 : run_messages r.1 rest with
      | none => simp [Option.bind]
      | some rr =>
        simp only [Option.bind]
        cases h3 : run_messages rr.1 l2 with
        | none => simp [Option.map]
        | some r2 => simp [Option.map, List.append_assoc]

theorem run_media_below_threshold (msgs : List (ℚ × TwilioInboundMessage)) :
    ∀ s : EngineState, (∀ p ∈ msgs, valid_media_message p.2) →
    s.startup_audio_warmed = true → s.stop_requested = false → s.is_shutting_down = false →
    s.caller_audio_buffer.length + (joined_media_bytes msgs).length < buffer_size_bytes →
    ∃ s1, run_messages s msgs = some (s1, [], List.replicate msgs.length true) ∧
      s1.caller_audio_buffer = s.caller_audio_buffer ++ joined_media_bytes msgs ∧
      s1.startup_audio_warmed = true ∧ s1.stop_requested = false ∧
      s1.is_shutting_down = false := by
  induction msgs with
  | nil =>
    intro s _ hw h1 h2 _
    exact ⟨s, rfl, by simp [joined_media_bytes], hw, h1, h2⟩
  | cons p rest ih =>
    intro s hv hw h1 h2 hlen
    obtain ⟨hev, hp, hdec⟩ := hv p (List.mem_cons_self _ _)
    obtain ⟨bs, hbs⟩ := Option.isSome_iff_exists.mp hdec
    have hmb : media_bytes p.2 = bs := by simp [media_bytes, hbs]
    have hjoin : joined_media_bytes (p :: rest) = bs ++ joined_media_bytes rest := by
      simp [joined_media_bytes, hmb]
    have hjlen : (joined_media_bytes (p :: rest)).length =
        bs.length + (joined_media_bytes rest).length := by
      rw [hjoin, List.length_append]
    have hlen1 : ¬ buffer_size_bytes ≤ (s.caller_audio_buffer ++ bs).length := by
      rw [List.length_append]
      omega
    have hmedia : handle_media_event p.1 s p.2 =
        ({ s with twilio_inbound_audio_frames := s.twilio_inbound_audio_frames + 1,
                  twilio_inbound_audio_bytes := s.twilio_inbound_audio_bytes + bs.length,
                  caller_audio_buffer := s.caller_audio_buffer ++ bs }, []) := by
      unfold handle_media_event
      rw [if_neg hp, hbs]
      simp only []
      rw [if_neg hlen1]
    have hmsg := handle_dispatch_media p.1 s p.2 hev h1 h2
    rw [hmedia] at hmsg
    obtain ⟨s1, hrun, hbuf, hw1, h11, h21⟩ := ih
      { s with twilio_inbound_audio_frames := s.twilio_inbound_audio_frames + 1,
               twilio_inbound_audio_bytes := s.twilio_inbound_audio_bytes + bs.length,
               caller_audio_buffer := s.caller_audio_buffer ++ bs }
      (fun q hq => hv q (List.mem_cons_of_mem _ hq)) hw h1 h2
      (by simp only [List.length_append]; omega)
    refine ⟨s1, ?_, ?_, hw1, h11, h21⟩
    · unfold run_messages
      rw [hmsg]
      simp only []
      rw [hrun]
      rfl
    · rw [hbuf]
      simp only []
      rw [hjoin, List.append_assoc]

theorem handle_media_flush_warmed (now : ℚ) (s : EngineState) (m : TwilioInboundMessage)
    (bs : List Nat) (hev : m.event = "media") (hp : m.media_payload ≠ "")
    (hbs : b64decode m.media_payload = some bs)
    (hw : s.startup_audio_warmed = true)
    (hstop : s.stop_requested = false) (hshut : s.is_shutting_down = false)
    (hlen : buffer_size_bytes ≤ s.caller_audio_buffer.length + bs.length) :
    ∃ s1, handle_twilio_message now s m =
        some (s1, [EngineEffect.send_audio (s.caller_audio_buffer ++ bs)], true) ∧
      s1.caller_audio_buffer = [] ∧ s1.startup_audio_warmed = true ∧
      s1.stop_requested = false ∧ s1.is_shutting_down = false := by
  rw [handle_dispatch_media now s m hev hstop hshut]
  unfold handle_media_event
  rw [if_neg hp, hbs]
  simp only []
  rw [if_pos (by simp only [List.length_append]; omega)]
  unfold flush_caller_audio_buffer
  rw [if_neg (by
    simp only []
    intro hcon
    have hc := congrArg List.length hcon
    simp only [List.length_append, List.length_nil] at hc
    have hb : 0 < buffer_size_bytes := by rw [buffer_size_bytes_eq]; omega
    omega)]
  simp only []
  rw [if_neg (by simp [hw])]
  exact ⟨_, rfl, rfl, hw, hstop, hshut⟩

/-- Claim C1: with warm-up already disabled, a sequence of valid media
frames whose cumulative decoded bytes first reach the 400-byte threshold at
its last frame produces exactly one `send_audio` call carrying exactly the
concatenation of all decoded bytes, and the caller buffer is empty
immediately afterwards. -/
theorem claim_c1_buffer_flush_threshold (msgs_init : List (ℚ × TwilioInboundMessage))
    (p_last : ℚ × TwilioInboundMessage) (s : EngineState)
    (hv : ∀ p ∈ msgs_init ++ [p_last], valid_media_message p.2)
    (hw : s.startup_audio_warmed = true)
    (hbuf : s.caller_audio_buffer = [])
    (hstop : s.stop_requested = false) (hshut : s.is_shutting_down = false)
    (hbelow : (joined_media_bytes msgs_init).length < 400)
    (hreach : 400 ≤ (joined_media_bytes (msgs_init ++ [p_last])).length) :
    ∃ s1, run_messages s (msgs_init ++ [p_last]) =
        some (s1, [EngineEffect.send_audio (joined_media_bytes (msgs_init ++ [p_last]))],
          List.replicate (msgs_init ++ [p_last]).length true) ∧
      s1.caller_audio_buffer = [] := by
  obtain ⟨hevl, hpl, hdecl⟩ := hv p_last (by simp)
  obtain ⟨bsl, hbsl⟩ := Option.isSome_iff_exists.mp hdecl
  have hmbl : media_bytes p_last.2 = bsl := by simp [media_bytes, hbsl]
  have hjoin : joined_media_bytes (msgs_init ++ [p_last]) =
      joined_media_bytes msgs_init ++ bsl := by
    simp [joined_media_bytes, hmbl]
  obtain ⟨smid, hrun1, hbuf1, hw1, h11, h21⟩ := run_media_below_threshold msgs_init s
    (fun q hq => hv q (by simp [hq])) hw hstop hshut
    (by rw [hbuf, buffer_size_bytes_eq]; simpa using hbelow)
  have hmidlen : smid.caller_audio_buffer.length = (joined_media_bytes msgs_init).length := by
    rw [hbuf1, hbuf]
    simp
  obtain ⟨s1, hstep, hbufe, _, _, _⟩ := handle_media_flush_warmed p_last.1 smid p_last.2
    bsl hevl hpl hbsl hw1 h11 h21
    (by
      rw [hmidlen, buffer_size_bytes_eq]
      have hjl := congrArg List.length hjoin
      simp only [List.length_append] at hjl
      omega)
  refine ⟨s1, ?_, hbufe⟩
  rw [run_messages_append msgs_init [p_last] s, hrun1]
  simp only [Option.bind]
  unfold run_messages
  rw [hstep]
  simp only [Option.map, List.append_nil, List.nil_append]
  rw [hbuf1, hbuf, List.nil_append, ← hjoin]
  simp [List.length_append, List.replicate_succ']
  simp [run_messages]

/-! ### Claim C2: startup warm-up coalescing -/

theorem joined_media_bytes_append (l1 l2 : List (ℚ × TwilioInboundMessage)) :
    joined_media_bytes (l1 ++ l2) = joined_media_bytes l1 ++ joined_media_bytes l2 := by
  simp [joined_media_bytes]

theorem joined_media_bytes_take_le (k : ℕ) (msgs : List (ℚ × TwilioInboundMessage)) :
    (joined_media_bytes (List.take k msgs)).length ≤ (joined_media_bytes msgs).length := by
  conv_rhs => rw [← List.take_append_drop k msgs]
  rw [joined_media_bytes_append, List.length_append]
  omega

theorem run_media_total (msgs : List (ℚ × TwilioInboundMessage)) :
    ∀ s : EngineState, (∀ p ∈ msgs, valid_media_message p.2) →
    s.stop_requested = false → s.is_shutting_down = false →
    ∃ s1 tr bools, run_messages s msgs = some (s1, tr, bools) ∧
      s1.stop_requested = false ∧ s1.is_shutting_down = false ∧
      (s.startup_audio_warmed = true → s1.startup_audio_warmed = true) := by
  induction msgs with
  | nil =>
    intro s _ h1 h2
    exact ⟨s, [], [], rfl, h1, h2, fun h => h⟩
  | cons p rest ih =>
    intro s hv h1 h2
    obtain ⟨hev, _, _⟩ := hv p (List.mem_cons_self _ _)
    have hmsg := handle_dispatch_media p.1 s p.2 hev h1 h2
    obtain ⟨hcp, _, hsr, _⟩ := handle_msg_control p.1 s p.2
      (handle_media_event p.1 s p.2).1 (handle_media_event p.1 s p.2).2 true hmsg
    have h1' : (handle_media_event p.1 s p.2).1.stop_requested = false := by
      rw [hsr (by rw [hev]; decide), h1]
    have h2' : (handle_media_event p.1 s p.2).1.is_shutting_down = false := by
      rw [hcp.2.2.1, h2]
    obtain ⟨s1, tr, bools, hrun, hh1, hh2, hhw⟩ :=
      ih (handle_media_event p.1 s p.2).1 (fun q hq => hv q (List.mem_cons_of_mem _ hq)) h1' h2'
    refine ⟨s1, (handle_media_event p.1 s p.2).2 ++ tr, true :: bools, ?_, hh1, hh2, ?_⟩
    · unfold run_messages
      rw [hmsg]
      simp only []
      rw [hrun]
    · intro hw
      exact hhw (hcp.2.2.2.2.2 hw)

theorem c2_warmup_main (msgs : List (ℚ × TwilioInboundMessage)) :
    ∀ (s : EngineState) (done : List Nat),
    (∀ p ∈ msgs, valid_media_message p.2) →
    s.startup_buffer_chunks = 3 →
    s.stop_requested = false → s.is_shutting_down = false →
    s.startup_audio_warmed = false →
    s.startup_audio_buffer ++ s.caller_audio_buffer = done →
    s.startup_audio_buffer.length < 1200 →
    ∃ s1 tr bools, run_messages s msgs = some (s1, tr, bools) ∧
      ((send_audio_chunks tr = [] ∧ s1.startup_audio_warmed = false ∧
        s1.startup_buffer_chunks = 3 ∧
        s1.stop_requested = false ∧ s1.is_shutting_down = false ∧
        s1.startup_audio_buffer ++ s1.caller_audio_buffer = done ++ joined_media_bytes msgs ∧
        s1.startup_audio_buffer.length < 1200) ∨
       (∃ k, 0 < k ∧ k ≤ msgs.length ∧
        (send_audio_chunks tr).head? = some (done ++ joined_media_bytes (List.take k msgs)) ∧
        1200 ≤ (done ++ joined_media_bytes (List.take k msgs)).length ∧
        s1.startup_audio_warmed = true)) := by
  induction msgs with
  | nil =>
    intro s done _ hchunks h1 h2 hw hdone hslen
    exact ⟨s, [], [], rfl, Or.inl ⟨rfl, hw, hchunks, h1, h2,
      by simp [joined_media_bytes, hdone], hslen⟩⟩
  | cons p rest ih =>
    intro s done hv hchunks h1 h2 hw hdone hslen
    obtain ⟨hev, hp, hdec⟩ := hv p (List.mem_cons_self _ _)
    obtain ⟨bs, hbs⟩ := Option.isSome_iff_exists.mp hdec
    have hmb : media_bytes p.2 = bs := by simp [media_bytes, hbs]
    have hjoin : joined_media_bytes (p :: rest) = bs ++ joined_media_bytes rest := by
      simp [joined_media_bytes, hmb]
    have hvrest : ∀ q ∈ rest, valid_media_message q.2 :=
      fun q hq => hv q (List.mem_cons_of_mem _ hq)
    by_cases hflush : buffer_size_bytes ≤ (s.caller_audio_buffer ++ bs).length
    · -- the frame fills a chunk: flush into warm-up buffer
      have hne : ¬ (s.caller_audio_buffer ++ bs = []) := by
        intro hcon
        have hc := congrArg List.length hcon
        have hb : 0 < buffer_size_bytes := by rw [buffer_size_bytes_eq]; omega
        simp only [List.length_nil] at hc
        omega
      have hdonebs : s.startup_audio_buffer ++ (s.caller_audio_buffer ++ bs) = done ++ bs := by
        rw [← List.append_assoc, hdone]
      by_cases htarget : (s.startup_audio_buffer ++ (s.caller_audio_buffer ++ bs)).length <
          buffer_size_bytes * s.startup_buffer_chunks
      · -- warm-up target not yet reached: accumulate, no send
        have hstep : handle_twilio_message p.1 s p.2 = some
            ({ s with twilio_inbound_audio_frames := s.twilio_inbound_audio_frames + 1,
                      twilio_inbound_audio_bytes := s.twilio_inbound_audio_bytes + bs.length,
                      caller_audio_buffer := [],
                      last_agent_audio_send_time := p.1,
                      startup_audio_buffer :=
                        (s.startup_audio_buffer ++ (s.caller_audio_buffer ++ bs)) },
              [], true) := by
          rw [handle_dispatch_media p.1 s p.2 hev h1 h2]
          unfold handle_media_event
          rw [if_neg hp, hbs]
          simp only []
          rw [if_pos hflush]
          unfold flush_caller_audio_buffer
          rw [if_neg hne]
          simp only []
          rw [if_pos hw, if_pos htarget]
        obtain ⟨s1, tr, bools, hrun, hcase⟩ := ih
          { s with twilio_inbound_audio_frames := s.twilio_inbound_audio_frames + 1,
                   twilio_inbound_audio_bytes := s.twilio_inbound_audio_bytes + bs.length,
                   caller_audio_buffer := [],
                   last_agent_audio_send_time := p.1,
                   startup_audio_buffer :=
                     (s.startup_audio_buffer ++ (s.caller_audio_buffer ++ bs)) }
          (done ++ bs) hvrest hchunks h1 h2 hw
          (by simp only [List.append_nil]; exact hdonebs)
          (by
            have hlt : (s.startup_audio_buffer ++ (s.caller_audio_buffer ++ bs)).length <
                1200 := by
              rw [hchunks, buffer_size_bytes_eq] at htarget
              omega
            simpa using hlt)
        refine ⟨s1, [] ++ tr, true :: bools, ?_, ?_⟩
        · unfold run_messages
          rw [hstep]
          simp only []
          rw [hrun]
        · rcases hcase with ⟨ha, hb2, hc, hd, he, hf, hg⟩ | ⟨k, hk0, hkle, hhead, hklen, hw1⟩
          · exact Or.inl ⟨by simpa using ha, hb2, hc, hd, he,
              by rw [hf, hjoin, List.append_assoc], hg⟩
          · refine Or.inr ⟨k + 1, by omega, by simp; omega, ?_, ?_, hw1⟩
            · rw [List.take_succ_cons]
              have hj2 : joined_media_bytes (p :: List.take k rest) =
                  bs ++ joined_media_bytes (List.take k rest) := by
                simp [joined_media_bytes, hmb]
              rw [hj2, ← List.append_assoc]
              simpa using hhead
            · rw [List.take_succ_cons]
              have hj2 : joined_media_bytes (p :: List.take k rest) =
                  bs ++ joined_media_bytes (List.take k rest) := by
                simp [joined_media_bytes, hmb]
              rw [hj2, ← List.append_assoc]
              simpa using hklen
      · -- warm-up target reached: the combined warm-up buffer is sent
        have hstep : handle_twilio_message p.1 s p.2 = some
            ({ s with twilio_inbound_audio_frames := s.twilio_inbound_audio_frames + 1,
                      twilio_inbound_audio_bytes := s.twilio_inbound_audio_bytes + bs.length,
                      caller_audio_buffer := [],
                      last_agent_audio_send_time := p.1,
                      startup_audio_buffer := [],
                      startup_audio_warmed := true,
                      agent_input_audio_chunks := s.agent_input_audio_chunks + 1,
                      agent_input_audio_bytes := s.agent_input_audio_bytes +
                        (s.startup_audio_buffer ++ (s.caller_audio_buffer ++ bs)).length },
              [EngineEffect.send_audio (s.startup_audio_buffer ++ (s.caller_audio_buffer ++ bs))],
              true) := by
          rw [handle_dispatch_media p.1 s p.2 hev h1 h2]
          unfold handle_media_event
          rw [if_neg hp, hbs]
          simp only []
          rw [if_pos hflush]
          unfold flush_caller_audio_buffer
          rw [if_neg hne]
          simp only []
          rw [if_pos hw, if_neg htarget]
        obtain ⟨s1, tr2, bools2, hrun2, hh1, hh2, hhw⟩ := run_media_total rest
          { s with twilio_inbound_audio_frames := s.twilio_inbound_audio_frames + 1,
                   twilio_inbound_audio_bytes := s.twilio_inbound_audio_bytes + bs.length,
                   caller_audio_buffer := [],
                   last_agent_audio_send_time := p.1,
                   startup_audio_buffer := [],
                   startup_audio_warmed := true,
                   agent_input_audio_chunks := s.agent_input_audio_chunks + 1,
                   agent_input_audio_bytes := s.agent_input_audio_bytes +
                     (s.startup_audio_buffer ++ (s.caller_audio_buffer ++ bs)).length }
          hvrest h1 h2
        refine ⟨s1,
          [EngineEffect.send_audio (s.startup_audio_buffer ++ (s.caller_audio_buffer ++ bs))]
            ++ tr2, true :: bools2, ?_, ?_⟩
        · unfold run_messages
          rw [hstep]
          simp only []
          rw [hrun2]
        · refine Or.inr ⟨1, by omega, by simp, ?_, ?_, hhw rfl⟩
          · have hj1 : joined_media_bytes (List.take 1 (p :: rest)) = bs := by
              simp [joined_media_bytes, hmb]
            rw [hj1, ← hdonebs]
            simp [send_audio_chunks]
          · have hj1 : joined_media_bytes (List.take 1 (p :: rest)) = bs := by
              simp [joined_media_bytes, hmb]
            rw [hj1, ← hdonebs]
            rw [hchunks, buffer_size_bytes_eq] at htarget
            omega
    · -- no flush: bytes stay in the caller buffer
      have hstep : handle_twilio_message p.1 s p.2 = some
          ({ s with twilio_inbound_audio_frames := s.twilio_inbound_audio_frames + 1,
                    twilio_inbound_audio_bytes := s.twilio_inbound_audio_bytes + bs.length,
                    caller_audio_buffer := s.caller_audio_buffer ++ bs }, [], true) := by
        rw [handle_dispatch_media p.1 s p.2 hev h1 h2]
        unfold handle_media_event
        rw [if_neg hp, hbs]
        simp only []
        rw [if_neg hflush]
      obtain ⟨s1, tr, bools, hrun, hcase⟩ := ih
        { s with twilio_inbound_audio_frames := s.twilio_inbound_audio_frames + 1,
                 twilio_inbound_audio_bytes := s.twilio_inbound_audio_bytes + bs.length,
                 caller_audio_buffer := s.caller_audio_buffer ++ bs }
        (done ++ bs) hvrest hchunks h1 h2 hw
        (by simp only []; rw [← List.append_assoc, hdone]) (by simpa using hslen)
      refine ⟨s1, [] ++ tr, true :: bools, ?_, ?_⟩
      · unfold run_messages
        rw [hstep]
        simp only []
        rw [hrun]
      · rcases hcase with ⟨ha, hb2, hc, hd, he, hf, hg⟩ | ⟨k, hk0, hkle, hhead, hklen, hw1⟩
        · exact Or.inl ⟨by simpa using ha, hb2, hc, hd, he,
            by rw [hf, hjoin, List.append_assoc], hg⟩
        · refine Or.inr ⟨k + 1, by omega, by simp; omega, ?_, ?_, hw1⟩
          · rw [List.take_succ_cons]
            have hj2 : joined_media_bytes (p :: List.take k rest) =
                bs ++ joined_media_bytes (List.take k rest) := by
              simp [joined_media_bytes, hmb]
            rw [hj2, ← List.append_assoc]
            simpa using hhead
          · rw [List.take_succ_cons]
            have hj2 : joined_media_bytes (p :: List.take k rest) =
                bs ++ joined_media_bytes (List.take k rest) := by
              simp [joined_media_bytes, hmb]
            rw [hj2, ← List.append_assoc]
            simpa using hklen

/-- Claim C2: with warm-up chunk count 3, (1) no `send_audio` happens while
any prefix of the media sequence holds fewer than 1200 decoded bytes (3
chunks of 400), (2) the first `send_audio` carries exactly the concatenated
decoded bytes of the first frames that reach the warm-up target (at least
1200 bytes) and leaves warm-up disabled, and (3) once warmed, no
`handle_twilio_message` call ever re-enables warm-up mode. -/
theorem claim_c2_warmup_coalescing (msgs : List (ℚ × TwilioInboundMessage))
    (s : EngineState)
    (hv : ∀ p ∈ msgs, valid_media_message p.2)
    (hchunks : s.startup_buffer_chunks = 3)
    (hwarm : s.startup_audio_warmed = false)
    (hsb : s.startup_audio_buffer = []) (hcb : s.caller_audio_buffer = [])
    (hstop : s.stop_requested = false) (hshut : s.is_shutting_down = false) :
    (∀ pre suf, msgs = pre ++ suf → (joined_media_bytes pre).length < 1200 →
      ∀ spre trpre bpre, run_messages s pre = some (spre, trpre, bpre) →
        send_audio_chunks trpre = []) ∧
    (∀ s1 tr bools, run_messages s msgs = some (s1, tr, bools) →
      send_audio_chunks tr ≠ [] →
      ∃ k, 0 < k ∧ k ≤ msgs.length ∧
        (send_audio_chunks tr).head? = some (joined_media_bytes (List.take k msgs)) ∧
        1200 ≤ (joined_media_bytes (List.take k msgs)).length ∧
        s1.startup_audio_warmed = true) ∧
    (∀ (t2 : ℚ) (s2 : EngineState) (m : TwilioInboundMessage)
        (r : EngineState × List EngineEffect × Bool),
      s2.startup_audio_warmed = true → handle_twilio_message t2 s2 m = some r →
      r.1.startup_audio_warmed = true) := by
  have hdone : s.startup_audio_buffer ++ s.caller_audio_buffer = [] := by
    rw [hsb, hcb]
    rfl
  have hslen : s.startup_audio_buffer.length < 1200 := by
    rw [hsb]
    simp
  refine ⟨?_, ?_, ?_⟩
  · intro pre suf heq hlt spre trpre bpre hrunpre
    have hvpre : ∀ p ∈ pre, valid_media_message p.2 := by
      intro q hq
      exact hv q (by rw [heq]; exact List.mem_append_left _ hq)
    obtain ⟨s1', tr', bools', hrun', hcase⟩ :=
      c2_warmup_main pre s [] hvpre hchunks hstop hshut hwarm hdone hslen
    rw [hrun'] at hrunpre
    simp only [Option.some.injEq, Prod.mk.injEq] at hrunpre
    obtain ⟨_, htr, _⟩ := hrunpre
    rcases hcase with ⟨ha, _⟩ | ⟨k, _, _, _, hklen, _⟩
    · rw [← htr]
      exact ha
    · exfalso
      simp only [List.nil_append] at hklen
      have := joined_media_bytes_take_le k pre
      omega
  · intro s1 tr bools hrun hsend
    obtain ⟨s1', tr', bools', hrun', hcase⟩ :=
      c2_warmup_main msgs s [] hv hchunks hstop hshut hwarm hdone hslen
    rw [hrun'] at hrun
    simp only [Option.some.injEq, Prod.mk.injEq] at hrun
    obtain ⟨hs1, htr, _⟩ := hrun
    subst hs1
    rcases hcase with ⟨ha, _⟩ | ⟨k, hk0, hkle, hhead, hklen, hw1⟩
    · exact absurd (htr ▸ ha) hsend
    · refine ⟨k, hk0, hkle, ?_, ?_, hw1⟩
      · rw [← htr]
        simpa using hhead
      · simpa using hklen
  · intro t2 s2 m r hw2 hr
    obtain ⟨hcp, _, _, _⟩ := handle_msg_control t2 s2 m r.1 r.2.1 r.2.2 (by rw [hr])
    exact hcp.2.2.2.2.2 hw2

/-! ### Claim C4: playback-mark creation and mark-id freshness -/

theorem mark_frame_names_append (a b : List EngineEffect) :
    mark_frame_names (a ++ b) = mark_frame_names a ++ mark_frame_names b := by
  simp [mark_frame_names, List.filterMap_append]

/-- Run-level invariant tying the playback-mark table and the mark counter
to the outbound frame trace: every table entry's `(media, mark)` frame pair
was already emitted (media first, carrying the same audio bytes), and the
mark frames emitted so far are exactly the consecutive counter mints. -/
def mark_invariant (c0 : Nat) (s : EngineState) (tr : List EngineEffect) : Prop :=
  s.emit_callback_set = true ∧
  c0 ≤ s.mark_counter ∧
  mark_frame_names tr =
    (List.range' (c0 + 1) (s.mark_counter - c0)).map (fun n => toString n) ∧
  ∀ entry ∈ s.twilio_mark_playback_map, ∃ sid b l1 l2,
    b.length = entry.2.2.2 ∧
    tr = l1 ++ EngineEffect.emit_twilio (.media sid (b64encode b)) ::
      EngineEffect.emit_twilio (.mark sid entry.1) :: l2

theorem mark_entry_extend {tr eff : List EngineEffect} {entry : String × String × Nat × Nat}
    (h : ∃ sid b l1 l2, b.length = entry.2.2.2 ∧
      tr = l1 ++ EngineEffect.emit_twilio (.media sid (b64encode b)) ::
        EngineEffect.emit_twilio (.mark sid entry.1) :: l2) :
    ∃ sid b l1 l2, b.length = entry.2.2.2 ∧
      tr ++ eff = l1 ++ EngineEffect.emit_twilio (.media sid (b64encode b)) ::
        EngineEffect.emit_twilio (.mark sid entry.1) :: l2 := by
  obtain ⟨sid, b, l1, l2, hlen, htr⟩ := h
  exact ⟨sid, b, l1, l2 ++ eff, hlen, by rw [htr]; simp⟩

theorem emit_audio_facts (s : EngineState) (e : ProviderAudioEvent)
    (hcb : s.emit_callback_set = true)
    (hg : ¬ (str_option_truthy s.stream_sid = false ∨ e.audio_bytes = [])) :
    (emit_audio_to_twilio s e).2 =
      [EngineEffect.emit_twilio (.media (s.stream_sid.getD "") (b64encode e.audio_bytes)),
       EngineEffect.emit_twilio (.mark (s.stream_sid.getD "")
         (toString (s.mark_counter + 1)))] ∧
    (emit_audio_to_twilio s e).1.mark_counter = s.mark_counter + 1 ∧
    (emit_audio_to_twilio s e).1.emit_callback_set = s.emit_callback_set ∧
    (emit_audio_to_twilio s e).1.twilio_mark_playback_map =
      alist_insert (toString (s.mark_counter + 1))
        (e.item_id.getD "", e.content_index.getD 0, e.audio_bytes.length)
        s.twilio_mark_playback_map := by
  unfold emit_audio_to_twilio
  rw [if_neg hg]
  refine ⟨?_, ?_, ?_, ?_⟩
  · simp [emit_twilio_message_payload, hcb]
  · simp
  · simp
  · simp

theorem step_mark_invariant (now : ℚ) (s : EngineState) (op : EngineOp)
    (r : EngineState × List EngineEffect) (c0 : Nat) (tr : List EngineEffect)
    (hinv : mark_invariant c0 s tr) (hstep : engine_step now s op = some r) :
    mark_invariant c0 r.1 (tr ++ r.2) := by
  obtain ⟨hcb, hc0, hnames, hentries⟩ := hinv
  cases op with
  | twilio_message m =>
    unfold engine_step at hstep
    simp only [] at hstep
    cases hh : handle_twilio_message now s m with
    | none => rw [hh] at hstep; exact Option.noConfusion hstep
    | some rr =>
      rw [hh] at hstep
      simp only [Option.some.injEq] at hstep
      subst hstep
      obtain ⟨hcp, hmn, _, _⟩ := handle_msg_control now s m rr.1 rr.2.1 rr.2.2 (by rw [hh])
      refine ⟨hcp.2.1.trans hcb, ?_, ?_, ?_⟩
      · rw [hcp.2.2.2.1]
        exact hc0
      · rw [mark_frame_names_append, hmn, List.append_nil, hnames, hcp.2.2.2.1]
      · intro entry he
        exact mark_entry_extend (hentries entry (hcp.2.2.2.2.1 entry he))
  | buffer_flush_tick =>
    unfold engine_step at hstep
    simp only [] at hstep
    unfold buffer_flush_tick at hstep
    split_ifs at hstep with hcond
    · simp only [Option.some.injEq] at hstep
      subst hstep
      obtain ⟨hcp, hmn, _⟩ := flush_control now s
      refine ⟨hcp.2.1.trans hcb, ?_, ?_, ?_⟩
      · rw [hcp.2.2.2.1]
        exact hc0
      · rw [mark_frame_names_append, hmn, List.append_nil, hnames, hcp.2.2.2.1]
      · intro entry he
        exact mark_entry_extend (hentries entry (hcp.2.2.2.2.1 entry he))
    · simp only [Option.some.injEq] at hstep
      subst hstep
      refine ⟨hcb, hc0, ?_, ?_⟩
      · rw [mark_frame_names_append, hnames]
        simp [mark_frame_names]
      · intro entry he
        exact mark_entry_extend (hentries entry he)
  | provider_audio_output e =>
    unfold engine_step at hstep
    simp only [Option.some.injEq] at hstep
    subst hstep
    unfold handle_provider_audio_output
    simp only []
    by_cases hg : str_option_truthy
        ({ s with provider_event_counts :=
          bump_event_count s.provider_event_counts "audio_output" } : EngineState).stream_sid
          = false ∨ e.audio_bytes = []
    · have hres : emit_audio_to_twilio
          { s with provider_event_counts :=
            bump_event_count s.provider_event_counts "audio_output" } e =
          ({ s with provider_event_counts :=
            bump_event_count s.provider_event_counts "audio_output" }, []) := by
        unfold emit_audio_to_twilio
        rw [if_pos hg]
      rw [hres]
      refine ⟨hcb, hc0, ?_, ?_⟩
      · rw [mark_frame_names_append, hnames]
        simp [mark_frame_names]
      · intro entry he
        exact mark_entry_extend (hentries entry he)
    · obtain ⟨heff, hcnt, hcbp, hmap⟩ := emit_audio_facts
        { s with provider_event_counts :=
          bump_event_count s.provider_event_counts "audio_output" } e hcb hg
      refine ⟨hcbp.trans hcb, ?_, ?_, ?_⟩
      · rw [hcnt]
        exact Nat.le_succ_of_le hc0
      · rw [mark_frame_names_append, hnames, heff, hcnt]
        have hmf : mark_frame_names
            [EngineEffect.emit_twilio (.media
              (({ s with provider_event_counts :=
                bump_event_count s.provider_event_counts "audio_output" } :
                EngineState).stream_sid.getD "") (b64encode e.audio_bytes)),
             EngineEffect.emit_twilio (.mark
              (({ s with provider_event_counts :=
                bump_event_count s.provider_event_counts "audio_output" } :
                EngineState).stream_sid.getD "") (toString (s.mark_counter + 1)))] =
            [toString (s.mark_counter + 1)] := rfl
        rw [hmf]
        have hrange : List.range' (c0 + 1) (s.mark_counter + 1 - c0) =
            List.range' (c0 + 1) (s.mark_counter - c0) ++ [s.mark_counter + 1] := by
          have hn : s.mark_counter + 1 - c0 = (s.mark_counter - c0) + 1 := by omega
          rw [hn, List.range'_1_concat]
          congr 2
          omega
        rw [hrange, List.map_append]
        simp
      · intro entry he
        rw [hmap] at he
        rcases mem_alist_insert entry _ _ _ he with heq | hold
        · subst heq
          refine ⟨({ s with provider_event_counts :=
              bump_event_count s.provider_event_counts "audio_output" } :
              EngineState).stream_sid.getD "", e.audio_bytes, tr, [], rfl, ?_⟩
          rw [heff]
        · exact mark_entry_extend (hentries entry hold)

theorem run_engine_mark_invariant (ops : List (ℚ × EngineOp)) :
    ∀ (s : EngineState) (tr : List EngineEffect) (c0 : Nat),
    mark_invariant c0 s tr →
    ∀ s1 tr1, run_engine s ops = some (s1, tr1) →
    mark_invariant c0 s1 (tr ++ tr1) := by
  induction ops with
  | nil =>
    intro s tr c0 hinv s1 tr1 h
    unfold run_engine at h
    simp only [Option.some.injEq, Prod.mk.injEq] at h
    obtain ⟨h1, h2⟩ := h
    subst h1
    rw [← h2, List.append_nil]
    exact hinv
  | cons op rest ih =>
    intro s tr c0 hinv s1 tr1 h
    unfold run_engine at h
    cases hstep : engine_step op.1 s op.2 with
    | none => rw [hstep] at h; exact Option.noConfusion h
    | some r =>
      rw [hstep] at h
      simp only [] at h
      cases hrun : run_engine r.1 rest with
      | none => rw [hrun] at h; exact Option.noConfusion h
      | some r2 =>
        rw [hrun] at h
        simp only [Option.some.injEq, Prod.mk.injEq] at h
        obtain ⟨h1, h2⟩ := h
        subst h1
        have hstepinv := step_mark_invariant op.1 s op.2 r c0 tr hinv hstep
        have hres := ih r.1 (tr ++ r.2) c0 hstepinv r2.1 r2.2 hrun
        rw [← h2, ← List.append_assoc]
        exact hres

/-- Claim C4: on every active-phase execution, a playback-mark table entry
exists only if the corresponding Twilio media frame (same audio bytes) was
already emitted, immediately followed by the entry's mark frame; and the
emitted mark ids are exactly the consecutive decimal mints of the
only-incrementing counter, hence pairwise distinct. -/
theorem claim_c4_playback_mark_invariant (chunks : Nat) (t0 : ℚ)
    (ops : List (ℚ × EngineOp)) (s1 : EngineState) (tr : List EngineEffect)
    (h : run_engine (engine_start (init_engine_state chunks t0)) ops = some (s1, tr)) :
    (mark_frame_names tr).Nodup ∧
    mark_frame_names tr = (List.range' 1 s1.mark_counter).map (fun n => toString n) ∧
    ∀ entry ∈ s1.twilio_mark_playback_map, ∃ sid b l1 l2,
      b.length = entry.2.2.2 ∧
      tr = l1 ++ EngineEffect.emit_twilio (.media sid (b64encode b)) ::
        EngineEffect.emit_twilio (.mark sid entry.1) :: l2 := by
  have hinv0 : mark_invariant 0 (engine_start (init_engine_state chunks t0)) [] := by
    refine ⟨rfl, Nat.zero_le _, rfl, ?_⟩
    intro entry he
    simp [engine_start, init_engine_state] at he
  obtain ⟨_, _, hnames, hentries⟩ :=
    run_engine_mark_invariant ops (engine_start (init_engine_state chunks t0)) [] 0
      hinv0 s1 tr h
  simp only [List.nil_append] at hnames hentries
  have hnames' : mark_frame_names tr =
      (List.range' 1 s1.mark_counter).map (fun n => toString n) := by
    rw [hnames]
    congr 1
  refine ⟨?_, hnames', hentries⟩
  rw [hnames']
  exact (List.nodup_range' 1 s1.mark_counter).map
    (fun a b hab => nat_toString_injective a b hab)

def c4_wit_ops : List (ℚ × EngineOp) :=
  [(0, .twilio_message (start_message "MZ" "CA1")),
   (0, .provider_audio_output
     { item_id := some "item", content_index := some 0, audio_bytes := [7, 8] })]

def c4_wit_run : Option (EngineState × List EngineEffect) :=
  run_engine (engine_start (init_engine_state 3 0)) c4_wit_ops

def c4_wit_s1 : EngineState := (c4_wit_run.getD (init_engine_state 3 0, [])).1

def c4_wit_tr : List EngineEffect := (c4_wit_run.getD (init_engine_state 3 0, [])).2

/-- Concrete instance of claim C4: one start frame then one provider audio
output; the single minted mark id is `1`, its media frame precedes its mark
frame, and the table entry records the emitted byte count. -/
theorem claim_c4_playback_mark_invariant_witness :
    c4_wit_run = some (c4_wit_s1, c4_wit_tr) ∧
    (mark_frame_names c4_wit_tr).Nodup ∧
    mark_frame_names c4_wit_tr =
      (List.range' 1 c4_wit_s1.mark_counter).map (fun n => toString n) ∧
    ∀ entry ∈ c4_wit_s1.twilio_mark_playback_map, ∃ sid b l1 l2,
      b.length = entry.2.2.2 ∧
      c4_wit_tr = l1 ++ EngineEffect.emit_twilio (.media sid (b64encode b)) ::
        EngineEffect.emit_twilio (.mark sid entry.1) :: l2 := by
  have h : run_engine (engine_start (init_engine_state 3 0)) c4_wit_ops =
      some (c4_wit_s1, c4_wit_tr) := rfl
  exact ⟨h, claim_c4_playback_mark_invariant 3 0 c4_wit_ops c4_wit_s1 c4_wit_tr h⟩

def c2_wit_frame : ℚ × TwilioInboundMessage :=
  (0, media_message (String.mk (List.replicate 400 'A')))

def c2_wit_msgs : List (ℚ × TwilioInboundMessage) := List.replicate 4 c2_wit_frame

set_option maxRecDepth 100000 in
/-- Concrete instance of claim C2: four media frames of 300 decoded bytes
each; flushes happen after frames 2 and 4, and the warm-up send fires on
frame 4 with all 1200 bytes. -/
theorem claim_c2_warmup_coalescing_witness :
    (∀ pre suf, c2_wit_msgs = pre ++ suf → (joined_media_bytes pre).length < 1200 →
      ∀ spre trpre bpre,
        run_messages (engine_start (init_engine_state 3 0)) pre = some (spre, trpre, bpre) →
        send_audio_chunks trpre = []) ∧
    (∀ s1 tr bools,
      run_messages (engine_start (init_engine_state 3 0)) c2_wit_msgs = some (s1, tr, bools) →
      send_audio_chunks tr ≠ [] →
      ∃ k, 0 < k ∧ k ≤ c2_wit_msgs.length ∧
        (send_audio_chunks tr).head? = some (joined_media_bytes (List.take k c2_wit_msgs)) ∧
        1200 ≤ (joined_media_bytes (List.take k c2_wit_msgs)).length ∧
        s1.startup_audio_warmed = true) ∧
    (∀ (t2 : ℚ) (s2 : EngineState) (m : TwilioInboundMessage)
        (r : EngineState × List EngineEffect × Bool),
      s2.startup_audio_warmed = true → handle_twilio_message t2 s2 m = some r →
      r.1.startup_audio_warmed = true) :=
  claim_c2_warmup_coalescing c2_wit_msgs (engine_start (init_engine_state 3 0))
    (by decide) rfl rfl rfl rfl rfl rfl

def c1_wit_frame : ℚ × TwilioInboundMessage := (0, media_message "AAAA")

def c1_wit_msgs_init : List (ℚ × TwilioInboundMessage) := List.replicate 133 c1_wit_frame

set_option maxRecDepth 40000 in
/-- Concrete instance of claim C1: 134 media frames of 3 decoded bytes each
(402 bytes) with warm-up disabled; the first 133 frames hold 399 bytes and
the last frame triggers the single flush. -/
theorem claim_c1_buffer_flush_threshold_witness :
    ∃ s1, run_messages (engine_start (init_engine_state 0 0))
        (c1_wit_msgs_init ++ [c1_wit_frame]) =
      some (s1,
        [EngineEffect.send_audio (joined_media_bytes (c1_wit_msgs_init ++ [c1_wit_frame]))],
        List.replicate (c1_wit_msgs_init ++ [c1_wit_frame]).length true) ∧
      s1.caller_audio_buffer = [] :=
  claim_c1_buffer_flush_threshold c1_wit_msgs_init c1_wit_frame _
    (by decide) rfl rfl rfl rfl (by decide) (by decide)

def c3_wit_state : EngineState :=
  { engine_start (init_engine_state 0 0) with stream_sid := some "MZ" }

def c3_wit_event : ProviderAudioEvent :=
  { item_id := some "item", content_index := some 2, audio_bytes := [7, 8] }

def c3_wit_s1 : EngineState := (emit_audio_to_twilio c3_wit_state c3_wit_event).1

def c3_wit_tr1 : List EngineEffect := (emit_audio_to_twilio c3_wit_state c3_wit_event).2

/-- Concrete instance of claim C3: emitting a 2-byte audio chunk on stream
`MZ` mints mark id `1`; replaying it plays exactly the recorded triple, a
second replay and an unknown id are no-ops. -/
theorem claim_c3_mark_roundtrip_witness :
    alist_lookup (toString (c3_wit_state.mark_counter + 1)) c3_wit_s1.twilio_mark_playback_map =
      some (c3_wit_event.item_id.getD "", c3_wit_event.content_index.getD 0,
        c3_wit_event.audio_bytes.length) ∧
    handle_twilio_message 0 c3_wit_s1
        (mark_message (toString (c3_wit_state.mark_counter + 1))) =
      some ({ c3_wit_s1 with twilio_mark_playback_map :=
          (alist_erase (toString (c3_wit_state.mark_counter + 1))
            c3_wit_s1.twilio_mark_playback_map) },
        [EngineEffect.on_output_played (c3_wit_event.item_id.getD "")
          (c3_wit_event.content_index.getD 0) c3_wit_event.audio_bytes.length
          (toString (c3_wit_state.mark_counter + 1))], true) ∧
    alist_lookup (toString (c3_wit_state.mark_counter + 1))
      (alist_erase (toString (c3_wit_state.mark_counter + 1))
        c3_wit_s1.twilio_mark_playback_map) = none ∧
    handle_twilio_message 1 ({ c3_wit_s1 with twilio_mark_playback_map :=
        (alist_erase (toString (c3_wit_state.mark_counter + 1))
          c3_wit_s1.twilio_mark_playback_map) })
      (mark_message (toString (c3_wit_state.mark_counter + 1))) =
      some ({ c3_wit_s1 with twilio_mark_playback_map :=
          (alist_erase (toString (c3_wit_state.mark_counter + 1))
            c3_wit_s1.twilio_mark_playback_map) },
        [], true) ∧
    (∀ mark_id : String, alist_lookup mark_id c3_wit_state.twilio_mark_playback_map = none →
      handle_twilio_message 0 c3_wit_state (mark_message mark_id) =
        some (c3_wit_state, [], true)) :=
  claim_c3_mark_roundtrip c3_wit_state c3_wit_event 0 1 c3_wit_s1 c3_wit_tr1
    rfl (by decide) rfl rfl rfl

end VoiceGateway
